import Mathlib

/-!
Verification of the Binance trade-message decoder
(`crypto-msg-parser/src/exchanges/binance.rs`) of crypto-crawler-rs.

JSON values are modelled by an inductive `Json`; serde_json numbers keep
their integer/float distinction, so `Json.int` models an integer number
token (what serde accepts for an `i64` field) and `Json.num` any other
number.  Objects are association lists; `serde_json::Value::get` and the
serde field lookups take the first binding of a key.  Floating-point
numbers are modelled by `ℚ`, so the arithmetic relations hold exactly.
Rust `panic!` and `Result::unwrap` aborts are modelled by the
`DecodeOutcome.abort` outcome, distinct from the typed serde error
(`DecodeOutcome.jsonError`) produced by the `?` operator.
-/

namespace Binance

inductive Json where
  | null : Json
  | bool (b : Bool) : Json
  | int (i : Int) : Json
  | num (q : ℚ) : Json
  | str (s : String) : Json
  | arr (elems : List Json) : Json
  | obj (fields : List (String × Json)) : Json

def Json.get (j : Json) (key : String) : Option Json :=
  match j with
  | .obj fields => fields.lookup key
  | _ => none

def Json.asStr : Json → Option String
  | .str s => some s
  | _ => none

def Json.asInt : Json → Option Int
  | .int i => some i
  | _ => none

def Json.asBool : Json → Option Bool
  | .bool b => some b
  | _ => none

def Json.asArr : Json → Option (List Json)
  | .arr elems => some elems
  | _ => none

/-- `MarketType` from the `crypto_market_type` crate (the variants used by
the spec; the Rust enum has further variants that behave like `Spot` in
this decoder, all falling into the non-inverse branch). -/
inductive MarketType where
  | Spot | LinearSwap | LinearFuture | InverseSwap | InverseFuture
  | EuropeanOption | QuantoSwap | QuantoFuture | Unknown
deriving DecidableEq, Repr

inductive TradeSide where
  | Buy | Sell
deriving DecidableEq, Repr

inductive MessageType where
  | Trade
deriving DecidableEq, Repr

/-- The canonical trade record `TradeMsg` of the `crypto-msg-parser` crate,
as populated by `parse_trade` in `binance.rs`. -/
structure TradeMsg where
  exchange : String
  market_type : MarketType
  symbol : String
  pair : String
  msg_type : MessageType
  timestamp : Int
  price : ℚ
  quantity : ℚ
  volume : ℚ
  side : TradeSide
  trade_id : String
  raw : Json

/-- `AggTradeMsg` of binance.rs: the aggregate-trade stream payload, with a
`#[serde(flatten)] extra` bucket for unmodelled fields. -/
structure AggTradeMsg where
  e : String
  E : Int
  s : String
  a : Int
  p : String
  q : String
  f : Int
  l : Int
  T : Int
  m : Bool
  extra : List (String × Json)

/-- `RawTradeMsg` of binance.rs: the raw trade stream payload. -/
structure RawTradeMsg where
  e : String
  E : Int
  s : String
  t : Int
  p : String
  q : String
  b : Int
  a : Int
  T : Int
  m : Bool
  extra : List (String × Json)

/-- `OptionTradeMsg` of binance.rs: one inner trade of the batched
(`trade_all`) payload. -/
structure OptionTradeMsg where
  t : String
  p : String
  q : String
  b : String
  a : String
  T : Int
  s : String
  S : String
  extra : List (String × Json)

/-- `OptionTradeAllMsg` of binance.rs: the batched payload.  Note the Rust
struct has no `#[serde(flatten)]` bucket, so serde ignores unknown keys
here instead of retaining them. -/
structure OptionTradeAllMsg where
  e : String
  E : Int
  s : String
  t : List OptionTradeMsg

def aggTradeKeys : List String := ["e", "E", "s", "a", "p", "q", "f", "l", "T", "m"]

def rawTradeKeys : List String := ["e", "E", "s", "t", "p", "q", "b", "a", "T", "m"]

def optionTradeKeys : List String := ["t", "p", "q", "b", "a", "T", "s", "S"]

/-- serde deserialization of `AggTradeMsg` from a JSON value: every named
field must be present with the right type; all remaining keys land in the
flattened `extra` map. -/
def decodeAggTrade (j : Json) : Option AggTradeMsg :=
  match j with
  | .obj fields => do
    let e ← (fields.lookup "e").bind Json.asStr
    let E ← (fields.lookup "E").bind Json.asInt
    let s ← (fields.lookup "s").bind Json.asStr
    let a ← (fields.lookup "a").bind Json.asInt
    let p ← (fields.lookup "p").bind Json.asStr
    let q ← (fields.lookup "q").bind Json.asStr
    let f ← (fields.lookup "f").bind Json.asInt
    let l ← (fields.lookup "l").bind Json.asInt
    let T ← (fields.lookup "T").bind Json.asInt
    let m ← (fields.lookup "m").bind Json.asBool
    some { e, E, s, a, p, q, f, l, T, m,
           extra := fields.filter (fun kv => ¬ aggTradeKeys.contains kv.1) }
  | _ => none

/-- serde deserialization of `RawTradeMsg` from a JSON value. -/
def decodeRawTrade (j : Json) : Option RawTradeMsg :=
  match j with
  | .obj fields => do
    let e ← (fields.lookup "e").bind Json.asStr
    let E ← (fields.lookup "E").bind Json.asInt
    let s ← (fields.lookup "s").bind Json.asStr
    let t ← (fields.lookup "t").bind Json.asInt
    let p ← (fields.lookup "p").bind Json.asStr
    let q ← (fields.lookup "q").bind Json.asStr
    let b ← (fields.lookup "b").bind Json.asInt
    let a ← (fields.lookup "a").bind Json.asInt
    let T ← (fields.lookup "T").bind Json.asInt
    let m ← (fields.lookup "m").bind Json.asBool
    some { e, E, s, t, p, q, b, a, T, m,
           extra := fields.filter (fun kv => ¬ rawTradeKeys.contains kv.1) }
  | _ => none

/-- serde deserialization of `OptionTradeMsg` from a JSON value. -/
def decodeOptionTrade (j : Json) : Option OptionTradeMsg :=
  match j with
  | .obj fields => do
    let t ← (fields.lookup "t").bind Json.asStr
    let p ← (fields.lookup "p").bind Json.asStr
    let q ← (fields.lookup "q").bind Json.asStr
    let b ← (fields.lookup "b").bind Json.asStr
    let a ← (fields.lookup "a").bind Json.asStr
    let T ← (fields.lookup "T").bind Json.asInt
    let s ← (fields.lookup "s").bind Json.asStr
    let S ← (fields.lookup "S").bind Json.asStr
    some { t, p, q, b, a, T, s, S,
           extra := fields.filter (fun kv => ¬ optionTradeKeys.contains kv.1) }
  | _ => none

/-- serde serialization of `OptionTradeMsg` (used by binance.rs line 180,
`serde_json::to_value(&trade)`): named fields in declaration order, then
the flattened `extra` entries. -/
def serializeOptionTrade (msg : OptionTradeMsg) : Json :=
  Json.obj ([("t", .str msg.t), ("p", .str msg.p), ("q", .str msg.q),
             ("b", .str msg.b), ("a", .str msg.a), ("T", .int msg.T),
             ("s", .str msg.s), ("S", .str msg.S)] ++ msg.extra)

/-- serde sequencing of a fallible decode over a list (a `Vec<T>` field):
the whole list decodes only if every element does, in order. -/
def decodeList (dec : Json → Option α) : List Json → Option (List α)
  | [] => some []
  | j :: rest =>
    match dec j, decodeList dec rest with
    | some x, some xs => some (x :: xs)
    | _, _ => none

/-- serde deserialization of `OptionTradeAllMsg` from a JSON value.  There
is no `extra` bucket: unknown keys are accepted and dropped (serde
default). -/
def decodeOptionTradeAll (j : Json) : Option OptionTradeAllMsg :=
  match j with
  | .obj fields => do
    let e ← (fields.lookup "e").bind Json.asStr
    let E ← (fields.lookup "E").bind Json.asInt
    let s ← (fields.lookup "s").bind Json.asStr
    let tArr ← (fields.lookup "t").bind Json.asArr
    let t ← decodeList decodeOptionTrade tArr
    some { e, E, s, t }
  | _ => none

def natOfDigits (cs : List Char) : Nat :=
  cs.foldl (fun n c => n * 10 + (c.toNat - 48)) 0

/-- Model of Rust `str::parse::<f64>` restricted to plain decimal
literals: optional sign, a nonempty integer part, optionally a dot and a
nonempty fraction part; anything else fails.  The value is exact in `ℚ`. -/
def parseFloat (s : String) : Option ℚ :=
  let cs := s.data
  let neg : Bool := match cs with
    | '-' :: _ => true
    | _ => false
  let cs1 := match cs with
    | '-' :: rest => rest
    | '+' :: rest => rest
    | _ => cs
  let intPart := cs1.takeWhile Char.isDigit
  let rest := cs1.dropWhile Char.isDigit
  let mag : Option ℚ :=
    if intPart.isEmpty then none
    else
      match rest with
      | [] => some (natOfDigits intPart)
      | '.' :: frac =>
        if frac.isEmpty ∨ ¬ frac.all Char.isDigit then none
        else some ((natOfDigits intPart : ℚ) +
                   (natOfDigits frac : ℚ) / (10 : ℚ) ^ frac.length)
      | _ => none
  if neg then mag.map (fun v => -v) else mag

/-- Modelled from the spec: `crypto_pair::normalize_pair` (a crate of this
repository outside `src/`) — the Pair Normalizer, a pure, deterministic
lookup of the exchange-native symbol in the process-wide normalization
table, returning the canonical `BASE/QUOTE` string, `none` on a miss.  The
table is passed explicitly here since the engine only reads it. -/
def normalize_pair (table : List (String × String)) (symbol : String) : Option String :=
  table.lookup symbol

def EXCHANGE_NAME : String := "binance"

/-- Model of Rust `str::starts_with` on the character sequences of the
two strings (structurally recursive so it evaluates definitionally). -/
def strStartsWith (s pre : String) : Bool :=
  pre.data.isPrefixOf s.data

/-- `contract_value` from `calc_quantity_and_volume` (binance.rs lines
84-88): the face value of one inverse contract. -/
def contract_value (pair : String) : ℚ :=
  if strStartsWith pair "BTC/" then 100 else 10

/-- `calc_quantity_and_volume` (binance.rs lines 77-95). -/
def calc_quantity_and_volume (market_type : MarketType) (pair : String)
    (price quantity : ℚ) : ℚ × ℚ :=
  if market_type = MarketType.InverseSwap ∨ market_type = MarketType.InverseFuture then
    let volume := quantity * contract_value pair
    let quantity := volume / price
    (quantity, volume)
  else
    (quantity, quantity * price)

/-- Outcome of a `parse_trade` call.  `ok` and `jsonError` are the two
sides of the Rust `serde_json::Result` return value; `abort` models a
process abort by `panic!` or `unwrap()` on a failed value, which is not a
return at all. -/
inductive DecodeOutcome where
  | ok (trades : List TradeMsg) : DecodeOutcome
  | jsonError : DecodeOutcome
  | abort (msg : String) : DecodeOutcome

/-- The `"aggTrade"` arm of `parse_trade` (binance.rs lines 103-128).
The Rust code first builds the record with the parsed quantity and
`volume: 0.0`, then overwrites both from `calc_quantity_and_volume`; the
net record is built directly here. -/
def aggTradeBranch (table : List (String × String)) (market_type : MarketType)
    (msg data : Json) : DecodeOutcome :=
  match decodeAggTrade data with
  | none => .abort "from_value unwrap"
  | some agg_trade =>
    match normalize_pair table agg_trade.s with
    | none => .abort "normalize_pair unwrap"
    | some pair =>
      match parseFloat agg_trade.p with
      | none => .abort "price parse unwrap"
      | some price =>
        match parseFloat agg_trade.q with
        | none => .abort "quantity parse unwrap"
        | some quantity0 =>
          let qv := calc_quantity_and_volume market_type pair price quantity0
          .ok [{ exchange := EXCHANGE_NAME, market_type, symbol := agg_trade.s,
                 pair, msg_type := MessageType.Trade, timestamp := agg_trade.T,
                 price, quantity := qv.1, volume := qv.2,
                 side := if agg_trade.m then TradeSide.Sell else TradeSide.Buy,
                 trade_id := toString agg_trade.a, raw := msg }]

/-- The `"trade"` arm of `parse_trade` (binance.rs lines 129-154). -/
def rawTradeBranch (table : List (String × String)) (market_type : MarketType)
    (msg data : Json) : DecodeOutcome :=
  match decodeRawTrade data with
  | none => .abort "from_value unwrap"
  | some raw_trade =>
    match normalize_pair table raw_trade.s with
    | none => .abort "normalize_pair unwrap"
    | some pair =>
      match parseFloat raw_trade.p with
      | none => .abort "price parse unwrap"
      | some price =>
        match parseFloat raw_trade.q with
        | none => .abort "quantity parse unwrap"
        | some quantity0 =>
          let qv := calc_quantity_and_volume market_type pair price quantity0
          .ok [{ exchange := EXCHANGE_NAME, market_type, symbol := raw_trade.s,
                 pair, msg_type := MessageType.Trade, timestamp := raw_trade.T,
                 price, quantity := qv.1, volume := qv.2,
                 side := if raw_trade.m then TradeSide.Sell else TradeSide.Buy,
                 trade_id := toString raw_trade.t, raw := msg }]

/-- The closure mapped over the inner trades in the `"trade_all"` arm
(binance.rs lines 160-182).  `none` models a panic of one of the three
`unwrap()` calls inside the closure. -/
def tradeAllItem (table : List (String × String)) (market_type : MarketType)
    (trade : OptionTradeMsg) : Option TradeMsg := do
  let price ← parseFloat trade.p
  let quantity ← parseFloat trade.q
  let pair ← normalize_pair table trade.S
  some { exchange := EXCHANGE_NAME, market_type, symbol := trade.S, pair,
         msg_type := MessageType.Trade, timestamp := trade.T, price, quantity,
         volume := price * quantity,
         side := if trade.s = "1" then TradeSide.Sell else TradeSide.Buy,
         trade_id := trade.a, raw := serializeOptionTrade trade }

/-- The in-order collection of the mapped closure results: any panic
inside the map aborts the whole call. -/
def collectItems (item : OptionTradeMsg → Option TradeMsg) :
    List OptionTradeMsg → Option (List TradeMsg)
  | [] => some []
  | t :: rest =>
    match item t, collectItems item rest with
    | some r, some rs => some (r :: rs)
    | _, _ => none

/-- The `"trade_all"` arm of `parse_trade` (binance.rs lines 155-186). -/
def tradeAllBranch (table : List (String × String)) (market_type : MarketType)
    (data : Json) : DecodeOutcome :=
  match decodeOptionTradeAll data with
  | none => .abort "from_value unwrap"
  | some all_trades =>
    match collectItems (tradeAllItem table market_type) all_trades.t with
    | none => .abort "unwrap inside map"
    | some trades => .ok trades

/-- `parse_trade` (binance.rs lines 97-189).  The input message is taken
as an already-lexed JSON value; `serde_json::from_str::<HashMap<String,
Value>>` then fails (the `?` operator, a typed error) exactly when the
value is not an object.  The two `unwrap()`s on the `data` and `e` lookups
and the catch-all `panic!` abort the process. -/
def parse_trade (table : List (String × String)) (market_type : MarketType)
    (msg : Json) : DecodeOutcome :=
  match msg with
  | Json.obj _ =>
    match msg.get "data" with
    | none => .abort "obj.get data unwrap"
    | some data =>
      match data.get "e" with
      | none => .abort "data.get e unwrap"
      | some eventVal =>
        match eventVal.asStr with
        | none => .abort "as_str unwrap"
        | some event_type =>
          if event_type = "aggTrade" then aggTradeBranch table market_type msg data
          else if event_type = "trade" then rawTradeBranch table market_type msg data
          else if event_type = "trade_all" then tradeAllBranch table market_type data
          else .abort ("Unsupported event type " ++ event_type)
  | _ => .jsonError

/-! ## Characterization lemmas for the three decode branches -/

theorem aggTradeBranch_ok (table : List (String × String)) (market_type : MarketType)
    (msg data : Json) (agg : AggTradeMsg) (pair : String) (price qty : ℚ)
    (h1 : decodeAggTrade data = some agg)
    (h2 : normalize_pair table agg.s = some pair)
    (h3 : parseFloat agg.p = some price)
    (h4 : parseFloat agg.q = some qty) :
    aggTradeBranch table market_type msg data = DecodeOutcome.ok
      [{ exchange := EXCHANGE_NAME, market_type, symbol := agg.s, pair,
         msg_type := MessageType.Trade, timestamp := agg.T, price,
         quantity := (calc_quantity_and_volume market_type pair price qty).1,
         volume := (calc_quantity_and_volume market_type pair price qty).2,
         side := if agg.m then TradeSide.Sell else TradeSide.Buy,
         trade_id := toString agg.a, raw := msg }] := by
  simp [aggTradeBranch, h1, h2, h3, h4]

theorem rawTradeBranch_ok (table : List (String × String)) (market_type : MarketType)
    (msg data : Json) (raw_trade : RawTradeMsg) (pair : String) (price qty : ℚ)
    (h1 : decodeRawTrade data = some raw_trade)
    (h2 : normalize_pair table raw_trade.s = some pair)
    (h3 : parseFloat raw_trade.p = some price)
    (h4 : parseFloat raw_trade.q = some qty) :
    rawTradeBranch table market_type msg data = DecodeOutcome.ok
      [{ exchange := EXCHANGE_NAME, market_type, symbol := raw_trade.s, pair,
         msg_type := MessageType.Trade, timestamp := raw_trade.T, price,
         quantity := (calc_quantity_and_volume market_type pair price qty).1,
         volume := (calc_quantity_and_volume market_type pair price qty).2,
         side := if raw_trade.m then TradeSide.Sell else TradeSide.Buy,
         trade_id := toString raw_trade.t, raw := msg }] := by
  simp [rawTradeBranch, h1, h2, h3, h4]

theorem tradeAllItem_ok (table : List (String × String)) (market_type : MarketType)
    (trade : OptionTradeMsg) (price qty : ℚ) (pair : String)
    (h1 : parseFloat trade.p = some price)
    (h2 : parseFloat trade.q = some qty)
    (h3 : normalize_pair table trade.S = some pair) :
    tradeAllItem table market_type trade = some
      { exchange := EXCHANGE_NAME, market_type, symbol := trade.S, pair,
        msg_type := MessageType.Trade, timestamp := trade.T, price,
        quantity := qty, volume := price * qty,
        side := if trade.s = "1" then TradeSide.Sell else TradeSide.Buy,
        trade_id := trade.a, raw := serializeOptionTrade trade } := by
  simp [tradeAllItem, h1, h2, h3]

/-! ## Claims -/

def c1Msg : Json :=
  Json.obj [("stream", .str "btcusdt@foobar"),
            ("data", Json.obj [("e", .str "foobar"), ("E", .int 1), ("s", .str "BTCUSDT")])]

/-- C1: the spec demands that an unrecognized discriminator yields the
typed error `UnsupportedEventType(name)` and never a process abort; the
code instead reaches `panic!("Unsupported event type {}")` (binance.rs
line 187), aborting the process.  Evaluating `parse_trade` at a message
whose discriminator is `"foobar"` exhibits the abort. -/
theorem C1_unknown_discriminator_aborts :
    parse_trade [] MarketType.Spot c1Msg =
      DecodeOutcome.abort "Unsupported event type foobar" := rfl

/-- C2: the Contract Unit Reconciler.  For inverse swaps/futures the face
value (`contract_value`) is 100 when the pair's base asset is BTC (the
pair string starts with `"BTC/"`) and 10 otherwise; the volume is the
reported quantity times the face value and the quantity is that volume
divided by the price.  For every other market type the quantity is the
reported quantity and the volume is quantity times price. -/
theorem C2_unit_reconciler (market_type : MarketType) (pair : String)
    (price quantity : ℚ) (hp : 0 < price) :
    ((market_type = MarketType.InverseSwap ∨ market_type = MarketType.InverseFuture) →
      contract_value pair = (if strStartsWith pair "BTC/" then (100 : ℚ) else 10) ∧
      calc_quantity_and_volume market_type pair price quantity =
        (quantity * contract_value pair / price, quantity * contract_value pair)) ∧
    (¬ (market_type = MarketType.InverseSwap ∨ market_type = MarketType.InverseFuture) →
      calc_quantity_and_volume market_type pair price quantity =
        (quantity, quantity * price)) := by
  refine ⟨fun h => ⟨rfl, ?_⟩, fun h => ?_⟩
  · simp [calc_quantity_and_volume, h]
  · simp [calc_quantity_and_volume, h]

/-- Witness for C2: spec scenario 3 — inverse swap on a BTC-quoted pair,
50 contracts at price 20000 give face value 100, volume 5000, quantity
0.25. -/
theorem C2_unit_reconciler_witness :
    (0 : ℚ) < 20000 ∧
    calc_quantity_and_volume MarketType.InverseSwap "BTC/USDT" 20000 50 = (1/4, 5000) := by
  refine ⟨by norm_num, ?_⟩
  have h := (C2_unit_reconciler MarketType.InverseSwap "BTC/USDT" 20000 50
    (by norm_num)).1 (Or.inl rfl)
  rw [h.2, show contract_value "BTC/USDT" = 100 from rfl]
  norm_num

/-- First record of a decode outcome, used to state concrete facts about a
returned trade without quantifying over lists. -/
def firstRecord : DecodeOutcome → Option TradeMsg
  | .ok (t :: _) => some t
  | _ => none

theorem contract_value_ne_zero (pair : String) : contract_value pair ≠ 0 := by
  unfold contract_value
  split <;> norm_num

/-- Inversion of `tradeAllItem`: if the mapped closure of the batched
branch returns a record, every field of that record is determined by the
inner trade exactly as binance.rs lines 160-182 build it. -/
theorem tradeAllItem_fields (table : List (String × String))
    (market_type : MarketType) (trade : OptionTradeMsg) (rec : TradeMsg)
    (h : tradeAllItem table market_type trade = some rec) :
    parseFloat trade.p = some rec.price ∧
    parseFloat trade.q = some rec.quantity ∧
    normalize_pair table trade.S = some rec.pair ∧
    rec.exchange = EXCHANGE_NAME ∧
    rec.market_type = market_type ∧
    rec.symbol = trade.S ∧
    rec.msg_type = MessageType.Trade ∧
    rec.timestamp = trade.T ∧
    rec.volume = rec.price * rec.quantity ∧
    rec.side = (if trade.s = "1" then TradeSide.Sell else TradeSide.Buy) ∧
    rec.trade_id = trade.a ∧
    rec.raw = serializeOptionTrade trade := by
  unfold tradeAllItem at h
  cases hp : parseFloat trade.p with
  | none => rw [hp] at h; exact absurd h (by simp)
  | some price =>
    rw [hp] at h
    cases hq : parseFloat trade.q with
    | none => rw [hq] at h; exact absurd h (by simp)
    | some qty =>
      rw [hq] at h
      cases hn : normalize_pair table trade.S with
      | none => rw [hn] at h; exact absurd h (by simp)
      | some pair =>
        rw [hn] at h
        simp only [bind, Option.bind, Option.some.injEq] at h
        subst h
        exact ⟨rfl, rfl, rfl, rfl, rfl, rfl, rfl, rfl, rfl, rfl, rfl, rfl⟩

/-- Inversion of `collectItems`: a successful collection has one output
record per inner trade, in the same order. -/
theorem collectItems_ok (item : OptionTradeMsg → Option TradeMsg) :
    ∀ (ts : List OptionTradeMsg) (rs : List TradeMsg),
      collectItems item ts = some rs →
      rs.length = ts.length ∧
      ∀ (i : Nat) (hi : i < rs.length) (hj : i < ts.length),
        item (ts.get ⟨i, hj⟩) = some (rs.get ⟨i, hi⟩) := by
  intro ts
  induction ts with
  | nil =>
    intro rs h
    simp only [collectItems, Option.some.injEq] at h
    subst h
    exact ⟨rfl, fun i hi _ => absurd hi (by simp)⟩
  | cons t rest ih =>
    intro rs h
    unfold collectItems at h
    cases hit : item t with
    | none => rw [hit] at h; exact absurd h (by simp)
    | some r =>
      rw [hit] at h
      cases hct : collectItems item rest with
      | none => rw [hct] at h; exact absurd h (by simp)
      | some rs0 =>
        rw [hct] at h
        simp only [Option.some.injEq] at h
        subst h
        obtain ⟨hlen, hpt⟩ := ih rs0 hct
        refine ⟨by simp [hlen], ?_⟩
        intro i hi hj
        cases i with
        | zero => simpa using hit
        | succ n =>
          simpa using hpt n (by simpa using hi) (by simpa using hj)

/-- Dispatch of `parse_trade` (binance.rs lines 102-188): once the
envelope is an object with a `data` member whose `e` member is the string
`ev`, the call routes to the branch selected by `ev`. -/
theorem parse_trade_routes (table : List (String × String))
    (market_type : MarketType) (fields : List (String × Json)) (data : Json)
    (ev : String) (hdata : List.lookup "data" fields = some data)
    (he : data.get "e" = some (Json.str ev)) :
    parse_trade table market_type (Json.obj fields) =
      (if ev = "aggTrade" then
        aggTradeBranch table market_type (Json.obj fields) data
      else if ev = "trade" then
        rawTradeBranch table market_type (Json.obj fields) data
      else if ev = "trade_all" then
        tradeAllBranch table market_type data
      else DecodeOutcome.abort ("Unsupported event type " ++ ev)) := by
  have h1 : (Json.obj fields).get "data" = some data := hdata
  simp only [parse_trade, h1, he, Json.asStr]

/-- Records of an `ok` outcome (empty on error/abort), used to state
concrete facts about returned sequences. -/
def DecodeOutcome.records : DecodeOutcome → List TradeMsg
  | .ok trades => trades
  | _ => []

/-- The algebraic relations of the reconciler output, shared by the
per-variant volume/quantity claims. -/
theorem calc_relations (market_type : MarketType) (pair : String) (price qty : ℚ) :
    (¬ (market_type = MarketType.InverseSwap ∨ market_type = MarketType.InverseFuture) →
      (calc_quantity_and_volume market_type pair price qty).1 * price =
        (calc_quantity_and_volume market_type pair price qty).2) ∧
    ((market_type = MarketType.InverseSwap ∨ market_type = MarketType.InverseFuture) →
      (calc_quantity_and_volume market_type pair price qty).2 / price =
        (calc_quantity_and_volume market_type pair price qty).1 ∧
      (calc_quantity_and_volume market_type pair price qty).2 / contract_value pair = qty) := by
  constructor
  · intro h
    simp [calc_quantity_and_volume, h]
  · intro h
    unfold calc_quantity_and_volume
    rw [if_pos h]
    exact ⟨rfl, mul_div_cancel_right₀ qty (contract_value_ne_zero pair)⟩

/-! ## Claim C3 -/

def c3Table : List (String × String) := [("GOOD", "ETH/USDT")]

def c3GoodTrade : OptionTradeMsg :=
  { t := "T1", p := "2", q := "3", b := "B1", a := "A1", T := 6, s := "1",
    S := "GOOD", extra := [] }

def c3Inner1 : Json :=
  Json.obj [("t", .str "T1"), ("p", .str "2"), ("q", .str "3"), ("b", .str "B1"),
            ("a", .str "A1"), ("T", .int 6), ("s", .str "1"), ("S", .str "GOOD")]

def c3Inner2BadSymbol : Json :=
  Json.obj [("t", .str "T2"), ("p", .str "2"), ("q", .str "3"), ("b", .str "B2"),
            ("a", .str "A2"), ("T", .int 6), ("s", .str "1"), ("S", .str "BAD")]

def c3Inner2BadNumber : Json :=
  Json.obj [("t", .str "T2"), ("p", .str "abc"), ("q", .str "3"), ("b", .str "B2"),
            ("a", .str "A2"), ("T", .int 6), ("s", .str "1"), ("S", .str "GOOD")]

def c3MsgBadSymbol : Json :=
  Json.obj [("stream", .str "x"),
            ("data", Json.obj [("e", .str "trade_all"), ("E", .int 1), ("s", .str "E"),
                               ("t", .arr [c3Inner1, c3Inner2BadSymbol])])]

def c3MsgBadNumber : Json :=
  Json.obj [("stream", .str "x"),
            ("data", Json.obj [("e", .str "trade_all"), ("E", .int 1), ("s", .str "E"),
                               ("t", .arr [c3Inner1, c3Inner2BadNumber])])]

/-- C3: the claim demands per-item isolation (`NumericParseError` /
`UnknownSymbolError` for the one bad trade, siblings still returned).
The code instead calls `unwrap()` on the parses and the symbol lookup
inside the mapped closure (binance.rs lines 161-167), so one bad trade
panics the whole call: a two-trade batch whose second trade has an
unknown symbol, or a non-numeric price, aborts with no records at all,
although its first trade decodes fine on its own. -/
theorem C3_per_item_error_aborts_batch :
    parse_trade c3Table MarketType.EuropeanOption c3MsgBadSymbol =
      DecodeOutcome.abort "unwrap inside map" ∧
    parse_trade c3Table MarketType.EuropeanOption c3MsgBadNumber =
      DecodeOutcome.abort "unwrap inside map" ∧
    (tradeAllItem c3Table MarketType.EuropeanOption c3GoodTrade).isSome = true :=
  ⟨rfl, rfl, rfl⟩

/-! ## Claim C4 -/

/-- C4: for every successfully decoded aggregated-trade (`"aggTrade"`) or
raw-trade (`"trade"`) message, the canonical record's side is Sell when
the "is buyer the maker" flag `m` is true and Buy when it is false. -/
theorem C4_side_from_maker_flag (table : List (String × String))
    (market_type : MarketType) (fields : List (String × Json)) (data : Json)
    (hdata : List.lookup "data" fields = some data) :
    (∀ (agg : AggTradeMsg) (pair : String) (price qty : ℚ),
      data.get "e" = some (Json.str "aggTrade") →
      decodeAggTrade data = some agg →
      normalize_pair table agg.s = some pair →
      parseFloat agg.p = some price → parseFloat agg.q = some qty →
      ∃ rec, parse_trade table market_type (Json.obj fields) = DecodeOutcome.ok [rec] ∧
        rec.side = (if agg.m then TradeSide.Sell else TradeSide.Buy)) ∧
    (∀ (rt : RawTradeMsg) (pair : String) (price qty : ℚ),
      data.get "e" = some (Json.str "trade") →
      decodeRawTrade data = some rt →
      normalize_pair table rt.s = some pair →
      parseFloat rt.p = some price → parseFloat rt.q = some qty →
      ∃ rec, parse_trade table market_type (Json.obj fields) = DecodeOutcome.ok [rec] ∧
        rec.side = (if rt.m then TradeSide.Sell else TradeSide.Buy)) := by
  constructor
  · intro agg pair price qty he h1 h2 h3 h4
    rw [parse_trade_routes table market_type fields data "aggTrade" hdata he, if_pos rfl]
    exact ⟨_, aggTradeBranch_ok table market_type (Json.obj fields) data agg pair price qty
      h1 h2 h3 h4, rfl⟩
  · intro rt pair price qty he h1 h2 h3 h4
    rw [parse_trade_routes table market_type fields data "trade" hdata he,
      if_neg (by decide), if_pos rfl]
    exact ⟨_, rawTradeBranch_ok table market_type (Json.obj fields) data rt pair price qty
      h1 h2 h3 h4, rfl⟩

def wTable : List (String × String) := [("BTCUSDT", "BTC/USDT"), ("ETHX", "ETH/USDT")]

def w4Agg : AggTradeMsg :=
  { e := "aggTrade", E := 2, s := "BTCUSDT", a := 11, p := "100", q := "2",
    f := 1, l := 3, T := 99, m := true, extra := [] }

def w4AggData : Json :=
  Json.obj [("e", .str "aggTrade"), ("E", .int 2), ("s", .str "BTCUSDT"), ("a", .int 11),
            ("p", .str "100"), ("q", .str "2"), ("f", .int 1), ("l", .int 3),
            ("T", .int 99), ("m", .bool true)]

def w4AggFields : List (String × Json) := [("stream", .str "s1"), ("data", w4AggData)]

def w4Raw : RawTradeMsg :=
  { e := "trade", E := 2, s := "BTCUSDT", t := 21, p := "100", q := "2",
    b := 1, a := 2, T := 98, m := false, extra := [] }

def w4RawData : Json :=
  Json.obj [("e", .str "trade"), ("E", .int 2), ("s", .str "BTCUSDT"), ("t", .int 21),
            ("p", .str "100"), ("q", .str "2"), ("b", .int 1), ("a", .int 2),
            ("T", .int 98), ("m", .bool false)]

def w4RawFields : List (String × Json) := [("stream", .str "s2"), ("data", w4RawData)]

/-- Witness for C4 (spec scenario 1): maker-flag true gives Sell, false
gives Buy. -/
theorem C4_side_from_maker_flag_witness :
    (∃ rec, parse_trade wTable MarketType.Spot (Json.obj w4AggFields) =
        DecodeOutcome.ok [rec] ∧ rec.side = TradeSide.Sell) ∧
    (∃ rec, parse_trade wTable MarketType.Spot (Json.obj w4RawFields) =
        DecodeOutcome.ok [rec] ∧ rec.side = TradeSide.Buy) := by
  constructor
  · obtain ⟨rec, h1, h2⟩ := (C4_side_from_maker_flag wTable MarketType.Spot w4AggFields
      w4AggData rfl).1 w4Agg "BTC/USDT" 100 2 rfl rfl rfl rfl rfl
    exact ⟨rec, h1, by simpa [w4Agg] using h2⟩
  · obtain ⟨rec, h1, h2⟩ := (C4_side_from_maker_flag wTable MarketType.Spot w4RawFields
      w4RawData rfl).2 w4Raw "BTC/USDT" 100 2 rfl rfl rfl rfl rfl
    exact ⟨rec, h1, by simpa [w4Raw] using h2⟩

/-! ## Claim C5 -/

def c5Table : List (String × String) := [("ETHX", "ETH/USDT")]

def c5Inner : Json :=
  Json.obj [("t", .str "T1"), ("p", .str "2"), ("q", .str "3"), ("b", .str "B1"),
            ("a", .str "A1"), ("T", .int 5), ("s", .str "1"), ("S", .str "ETHX")]

def c5Msg : Json :=
  Json.obj [("stream", .str "x"),
            ("data", Json.obj [("e", .str "trade_all"), ("E", .int 9), ("s", .str "E"),
                               ("t", .arr [c5Inner])])]

/-- Counterexample to C5 as stated: a batched (`"trade_all"`) message
decoded with `market_type = InverseSwap` yields a successfully decoded
trade whose market is an inverse contract, whose reported contract count
(the `q` text `"3"`) is 3 and whose volume is price * quantity = 6, yet
volume / face_value = 6 / 10 ≠ 3 — the batched branch never applies the
reconciler, so the claimed inverse-contract relation fails. -/
theorem C5_counterexample :
    (firstRecord (parse_trade c5Table MarketType.InverseSwap c5Msg)).map
      TradeMsg.market_type = some MarketType.InverseSwap ∧
    (firstRecord (parse_trade c5Table MarketType.InverseSwap c5Msg)).map
      TradeMsg.pair = some "ETH/USDT" ∧
    parseFloat "3" = some 3 ∧
    (firstRecord (parse_trade c5Table MarketType.InverseSwap c5Msg)).map
      TradeMsg.volume = some 6 ∧
    (6 : ℚ) / contract_value "ETH/USDT" ≠ 3 := by
  refine ⟨rfl, rfl, rfl, ?_, ?_⟩
  · have h : (firstRecord (parse_trade c5Table MarketType.InverseSwap c5Msg)).map
        TradeMsg.volume = some ((2 : ℚ) * 3) := rfl
    rw [h]
    norm_num
  · rw [show contract_value "ETH/USDT" = 10 from rfl]
    norm_num

/-- C5 (amended): the claimed relations hold for the aggregated-trade and
raw-trade variants, whose records go through `calc_quantity_and_volume`:
for non-inverse markets quantity * price = volume, and for inverse
markets volume / price = quantity and volume / face_value = the reported
contract count.  Batched (`"trade_all"`) records instead always satisfy
quantity * price = volume, for every market type — the reconciler is not
applied there, so the inverse face-value relation does not transfer to
that variant. -/
theorem C5_amended_volume_relations (table : List (String × String))
    (market_type : MarketType) (msg data : Json) :
    (∀ (agg : AggTradeMsg) (pair : String) (price qty : ℚ),
      decodeAggTrade data = some agg →
      normalize_pair table agg.s = some pair →
      parseFloat agg.p = some price → parseFloat agg.q = some qty →
      ∃ rec, aggTradeBranch table market_type msg data = DecodeOutcome.ok [rec] ∧
        (¬ (market_type = MarketType.InverseSwap ∨ market_type = MarketType.InverseFuture) →
          rec.quantity * rec.price = rec.volume) ∧
        ((market_type = MarketType.InverseSwap ∨ market_type = MarketType.InverseFuture) →
          rec.volume / rec.price = rec.quantity ∧
          rec.volume / contract_value rec.pair = qty)) ∧
    (∀ (rt : RawTradeMsg) (pair : String) (price qty : ℚ),
      decodeRawTrade data = some rt →
      normalize_pair table rt.s = some pair →
      parseFloat rt.p = some price → parseFloat rt.q = some qty →
      ∃ rec, rawTradeBranch table market_type msg data = DecodeOutcome.ok [rec] ∧
        (¬ (market_type = MarketType.InverseSwap ∨ market_type = MarketType.InverseFuture) →
          rec.quantity * rec.price = rec.volume) ∧
        ((market_type = MarketType.InverseSwap ∨ market_type = MarketType.InverseFuture) →
          rec.volume / rec.price = rec.quantity ∧
          rec.volume / contract_value rec.pair = qty)) ∧
    (∀ (trade : OptionTradeMsg) (rec : TradeMsg),
      tradeAllItem table market_type trade = some rec →
      rec.quantity * rec.price = rec.volume) := by
  refine ⟨?_, ?_, ?_⟩
  · intro agg pair price qty h1 h2 h3 h4
    exact ⟨_, aggTradeBranch_ok table market_type msg data agg pair price qty h1 h2 h3 h4,
      (calc_relations market_type pair price qty).1,
      (calc_relations market_type pair price qty).2⟩
  · intro rt pair price qty h1 h2 h3 h4
    exact ⟨_, rawTradeBranch_ok table market_type msg data rt pair price qty h1 h2 h3 h4,
      (calc_relations market_type pair price qty).1,
      (calc_relations market_type pair price qty).2⟩
  · intro trade rec h
    have h9 := (tradeAllItem_fields table market_type trade rec h).2.2.2.2.2.2.2.2.1
    rw [h9, mul_comm]

def w5Agg : AggTradeMsg :=
  { e := "aggTrade", E := 2, s := "BTCUSDT", a := 11, p := "20000", q := "50",
    f := 1, l := 3, T := 99, m := true, extra := [] }

def w5Data : Json :=
  Json.obj [("e", .str "aggTrade"), ("E", .int 2), ("s", .str "BTCUSDT"), ("a", .int 11),
            ("p", .str "20000"), ("q", .str "50"), ("f", .int 1), ("l", .int 3),
            ("T", .int 99), ("m", .bool true)]

def w5Msg : Json := Json.obj [("stream", .str "s1"), ("data", w5Data)]

/-- Witness for the amended C5: an inverse-swap aggregated trade on a BTC
pair, 50 contracts at price 20000, satisfies volume / price = quantity
and volume / face_value = 50. -/
theorem C5_amended_volume_relations_witness :
    ∃ rec, aggTradeBranch wTable MarketType.InverseSwap w5Msg w5Data =
        DecodeOutcome.ok [rec] ∧
      rec.volume / rec.price = rec.quantity ∧
      rec.volume / contract_value rec.pair = 50 := by
  obtain ⟨rec, hok, _, hinv⟩ := (C5_amended_volume_relations wTable MarketType.InverseSwap
    w5Msg w5Data).1 w5Agg "BTC/USDT" 20000 50 rfl rfl rfl rfl
  exact ⟨rec, hok, (hinv (Or.inl rfl)).1, (hinv (Or.inl rfl)).2⟩

/-! ## Claim C6 -/

def c6Data : Json :=
  Json.obj [("e", .str "aggTrade"), ("E", .int 1), ("s", .str "BTCUSDT"), ("a", .int 7),
            ("p", .str "100"), ("q", .str "2"), ("f", .int 1), ("l", .int 2),
            ("T", .int 99), ("m", .bool true)]

def c6Msg : Json := Json.obj [("stream", .str "btcusdt@aggTrade"), ("data", c6Data)]

/-- Counterexample to C6 as stated: for an aggregated-trade message the
record's `raw` is the whole envelope re-parsed (`serde_json::from_str(msg)`,
binance.rs line 121), not the `data` section: it still contains the
`stream` key, which the data section does not, so it cannot deep-equal
the data section. -/
theorem C6_counterexample :
    (firstRecord (parse_trade wTable MarketType.Spot c6Msg)).map TradeMsg.raw =
      some c6Msg ∧
    c6Msg.get "data" = some c6Data ∧
    (firstRecord (parse_trade wTable MarketType.Spot c6Msg)).map
      (fun rec => (rec.raw.get "stream").isSome) = some true ∧
    (c6Data.get "stream").isSome = false ∧
    c6Msg ≠ c6Data :=
  ⟨rfl, rfl, rfl, rfl,
    fun h => nomatch congrArg (fun j => (Json.get j "stream").isSome) h⟩

/-- C6 (amended): for the aggregated-trade and raw-trade variants, `raw`
holds the entire original input envelope (stream wrapper included); for
the batched variant, each record's `raw` is the re-serialization of its
own inner trade struct (which round-trips every field of that inner
object, including unknown keys, via the flattened `extra` bucket). -/
theorem C6_amended_raw_is_envelope (table : List (String × String))
    (market_type : MarketType) (msg data : Json) :
    (∀ (agg : AggTradeMsg) (pair : String) (price qty : ℚ),
      decodeAggTrade data = some agg →
      normalize_pair table agg.s = some pair →
      parseFloat agg.p = some price → parseFloat agg.q = some qty →
      ∃ rec, aggTradeBranch table market_type msg data = DecodeOutcome.ok [rec] ∧
        rec.raw = msg) ∧
    (∀ (rt : RawTradeMsg) (pair : String) (price qty : ℚ),
      decodeRawTrade data = some rt →
      normalize_pair table rt.s = some pair →
      parseFloat rt.p = some price → parseFloat rt.q = some qty →
      ∃ rec, rawTradeBranch table market_type msg data = DecodeOutcome.ok [rec] ∧
        rec.raw = msg) ∧
    (∀ (trade : OptionTradeMsg) (rec : TradeMsg),
      tradeAllItem table market_type trade = some rec →
      rec.raw = serializeOptionTrade trade) := by
  refine ⟨?_, ?_, ?_⟩
  · intro agg pair price qty h1 h2 h3 h4
    exact ⟨_, aggTradeBranch_ok table market_type msg data agg pair price qty h1 h2 h3 h4, rfl⟩
  · intro rt pair price qty h1 h2 h3 h4
    exact ⟨_, rawTradeBranch_ok table market_type msg data rt pair price qty h1 h2 h3 h4, rfl⟩
  · intro trade rec h
    exact (tradeAllItem_fields table market_type trade rec h).2.2.2.2.2.2.2.2.2.2.2

def c6Agg : AggTradeMsg :=
  { e := "aggTrade", E := 1, s := "BTCUSDT", a := 7, p := "100", q := "2",
    f := 1, l := 2, T := 99, m := true, extra := [] }

/-- Witness for the amended C6: the aggregated-trade record of `c6Msg`
carries the whole envelope as `raw`. -/
theorem C6_amended_raw_is_envelope_witness :
    ∃ rec, aggTradeBranch wTable MarketType.Spot c6Msg c6Data = DecodeOutcome.ok [rec] ∧
      rec.raw = c6Msg :=
  (C6_amended_raw_is_envelope wTable MarketType.Spot c6Msg c6Data).1
    c6Agg "BTC/USDT" 100 2 rfl rfl rfl rfl

/-! ## Claim C7 -/

/-- C7: a successfully decoded batched (`"trade_all"`) envelope with n
inner trades yields exactly n records; the i-th record is built from the
i-th inner trade of the payload (order preserved, never re-sorted) and
carries that trade's own order id `a` as its trade_id. -/
theorem C7_batched_order (table : List (String × String))
    (market_type : MarketType) (fields : List (String × Json)) (data : Json)
    (all : OptionTradeAllMsg) (trades : List TradeMsg)
    (hdata : List.lookup "data" fields = some data)
    (he : data.get "e" = some (Json.str "trade_all"))
    (hdec : decodeOptionTradeAll data = some all)
    (hok : parse_trade table market_type (Json.obj fields) = DecodeOutcome.ok trades) :
    trades.length = all.t.length ∧
    ∀ (i : Nat) (hi : i < trades.length) (hj : i < all.t.length),
      tradeAllItem table market_type (all.t.get ⟨i, hj⟩) = some (trades.get ⟨i, hi⟩) ∧
      (trades.get ⟨i, hi⟩).trade_id = (all.t.get ⟨i, hj⟩).a := by
  rw [parse_trade_routes table market_type fields data "trade_all" hdata he,
    if_neg (by decide), if_neg (by decide), if_pos rfl] at hok
  simp only [tradeAllBranch, hdec] at hok
  cases hc : collectItems (tradeAllItem table market_type) all.t with
  | none => rw [hc] at hok; exact absurd hok (by simp)
  | some rs =>
    rw [hc] at hok
    simp only [DecodeOutcome.ok.injEq] at hok
    subst hok
    obtain ⟨hlen, hpt⟩ := collectItems_ok (tradeAllItem table market_type) all.t rs hc
    refine ⟨hlen, fun i hi hj => ?_⟩
    have h := hpt i hi hj
    exact ⟨h, (tradeAllItem_fields table market_type _ _ h).2.2.2.2.2.2.2.2.2.2.1⟩

def w7Table : List (String × String) := [("GOOD", "ETH/USDT")]

def w7Inner1 : Json :=
  Json.obj [("t", .str "T1"), ("p", .str "2"), ("q", .str "3"), ("b", .str "B1"),
            ("a", .str "A1"), ("T", .int 50), ("s", .str "1"), ("S", .str "GOOD")]

def w7Inner2 : Json :=
  Json.obj [("t", .str "T2"), ("p", .str "4"), ("q", .str "5"), ("b", .str "B2"),
            ("a", .str "A2"), ("T", .int 50), ("s", .str "2"), ("S", .str "GOOD")]

def w7Data : Json :=
  Json.obj [("e", .str "trade_all"), ("E", .int 1), ("s", .str "E"),
            ("t", .arr [w7Inner1, w7Inner2])]

def w7Fields : List (String × Json) := [("stream", .str "x"), ("data", w7Data)]

def w7All : OptionTradeAllMsg :=
  { e := "trade_all", E := 1, s := "E",
    t := [{ t := "T1", p := "2", q := "3", b := "B1", a := "A1", T := 50, s := "1",
            S := "GOOD", extra := [] },
          { t := "T2", p := "4", q := "5", b := "B2", a := "A2", T := 50, s := "2",
            S := "GOOD", extra := [] }] }

/-- Witness for C7 (spec scenario 4): two inner trades sharing one outer
timestamp decode to two records, in order, with distinct trade ids. -/
theorem C7_batched_order_witness :
    ((parse_trade w7Table MarketType.EuropeanOption (Json.obj w7Fields)).records).length =
      w7All.t.length ∧
    ((parse_trade w7Table MarketType.EuropeanOption (Json.obj w7Fields)).records).map
      TradeMsg.trade_id = ["A1", "A2"] ∧
    ((parse_trade w7Table MarketType.EuropeanOption (Json.obj w7Fields)).records).map
      TradeMsg.timestamp = [50, 50] := by
  have h := C7_batched_order w7Table MarketType.EuropeanOption w7Fields w7Data w7All
    ((parse_trade w7Table MarketType.EuropeanOption (Json.obj w7Fields)).records)
    rfl rfl rfl rfl
  exact ⟨h.1, rfl, rfl⟩

/-! ## Claim C8 -/

def mkAggJson (e : String) (E : Int) (s : String) (a : Int) (p q : String)
    (f l T : Int) (m : Bool) (extra : List (String × Json)) : Json :=
  Json.obj ([("e", .str e), ("E", .int E), ("s", .str s), ("a", .int a),
             ("p", .str p), ("q", .str q), ("f", .int f), ("l", .int l),
             ("T", .int T), ("m", .bool m)] ++ extra)

def mkRawJson (e : String) (E : Int) (s : String) (t : Int) (p q : String)
    (b a T : Int) (m : Bool) (extra : List (String × Json)) : Json :=
  Json.obj ([("e", .str e), ("E", .int E), ("s", .str s), ("t", .int t),
             ("p", .str p), ("q", .str q), ("b", .int b), ("a", .int a),
             ("T", .int T), ("m", .bool m)] ++ extra)

def mkOptionTradeJson (t p q b a : String) (T : Int) (s S : String)
    (extra : List (String × Json)) : Json :=
  Json.obj ([("t", .str t), ("p", .str p), ("q", .str q), ("b", .str b),
             ("a", .str a), ("T", .int T), ("s", .str s), ("S", .str S)] ++ extra)

def mkTradeAllJson (e : String) (E : Int) (s : String) (ts : List Json)
    (extra : List (String × Json)) : Json :=
  Json.obj ([("e", .str e), ("E", .int E), ("s", .str s), ("t", .arr ts)] ++ extra)

def c8Inner : Json :=
  Json.obj [("t", .str "T1"), ("p", .str "2"), ("q", .str "3"), ("b", .str "B1"),
            ("a", .str "A1"), ("T", .int 5), ("s", .str "1"), ("S", .str "GOOD")]

def c8Table : List (String × String) := [("GOOD", "ETH/USDT")]

def c8Base : Json :=
  Json.obj [("e", .str "trade_all"), ("E", .int 1), ("s", .str "E"),
            ("t", .arr [c8Inner])]

def c8Plus : Json :=
  Json.obj [("e", .str "trade_all"), ("E", .int 1), ("s", .str "E"),
            ("t", .arr [c8Inner]), ("zzz", .null)]

def c8MsgBase : Json := Json.obj [("stream", .str "x"), ("data", c8Base)]

def c8MsgPlus : Json := Json.obj [("stream", .str "x"), ("data", c8Plus)]

/-- Counterexample to C8 as stated: the batched outer struct
`OptionTradeAllMsg` has no flattened bucket, so an unknown key (`"zzz"`)
on the data section of a `"trade_all"` message is accepted but dropped:
decoding succeeds and yields exactly the same value, and the whole parse
yields the same records, as for the message without the key — the
unknown key/value is retained nowhere. -/
theorem C8_counterexample :
    decodeOptionTradeAll c8Plus = decodeOptionTradeAll c8Base ∧
    (decodeOptionTradeAll c8Plus).isSome = true ∧
    (c8Plus.get "zzz").isSome = true ∧
    (c8Base.get "zzz").isSome = false ∧
    parse_trade c8Table MarketType.EuropeanOption c8MsgPlus =
      parse_trade c8Table MarketType.EuropeanOption c8MsgBase ∧
    (firstRecord (parse_trade c8Table MarketType.EuropeanOption c8MsgPlus)).isSome
      = true :=
  ⟨rfl, rfl, rfl, rfl, rfl, rfl⟩

/-- C8 (amended): decoding never fails on unknown JSON keys.  For the
aggregated-trade, raw-trade and inner option-trade structs every unknown
key/value is retained in the flattened `extra` bucket; for the batched
outer struct (`OptionTradeAllMsg`, which has no bucket) unknown keys are
accepted but dropped, the decoded value being identical to the one
without them. -/
theorem C8_amended_unknown_keys :
    (∀ (e : String) (E : Int) (s : String) (a : Int) (p q : String) (f l T : Int)
       (m : Bool) (extra : List (String × Json)),
      decodeAggTrade (mkAggJson e E s a p q f l T m extra) =
        some { e, E, s, a, p, q, f, l, T, m,
               extra := extra.filter (fun kv => ¬ aggTradeKeys.contains kv.1) } ∧
      ∀ kv ∈ extra, aggTradeKeys.contains kv.1 = false →
        kv ∈ extra.filter (fun kv => ¬ aggTradeKeys.contains kv.1)) ∧
    (∀ (e : String) (E : Int) (s : String) (t : Int) (p q : String) (b a T : Int)
       (m : Bool) (extra : List (String × Json)),
      decodeRawTrade (mkRawJson e E s t p q b a T m extra) =
        some { e, E, s, t, p, q, b, a, T, m,
               extra := extra.filter (fun kv => ¬ rawTradeKeys.contains kv.1) } ∧
      ∀ kv ∈ extra, rawTradeKeys.contains kv.1 = false →
        kv ∈ extra.filter (fun kv => ¬ rawTradeKeys.contains kv.1)) ∧
    (∀ (t p q b a : String) (T : Int) (s S : String) (extra : List (String × Json)),
      decodeOptionTrade (mkOptionTradeJson t p q b a T s S extra) =
        some { t, p, q, b, a, T, s, S,
               extra := extra.filter (fun kv => ¬ optionTradeKeys.contains kv.1) } ∧
      ∀ kv ∈ extra, optionTradeKeys.contains kv.1 = false →
        kv ∈ extra.filter (fun kv => ¬ optionTradeKeys.contains kv.1)) ∧
    (∀ (e : String) (E : Int) (s : String) (ts : List Json)
       (extra : List (String × Json)),
      decodeOptionTradeAll (mkTradeAllJson e E s ts extra) =
        decodeOptionTradeAll (mkTradeAllJson e E s ts [])) := by
  refine ⟨?_, ?_, ?_, ?_⟩
  · intro e E s a p q f l T m extra
    refine ⟨rfl, fun kv hkv hfalse => ?_⟩
    rw [List.mem_filter]
    exact ⟨hkv, by rw [hfalse]; rfl⟩
  · intro e E s t p q b a T m extra
    refine ⟨rfl, fun kv hkv hfalse => ?_⟩
    rw [List.mem_filter]
    exact ⟨hkv, by rw [hfalse]; rfl⟩
  · intro t p q b a T s S extra
    refine ⟨rfl, fun kv hkv hfalse => ?_⟩
    rw [List.mem_filter]
    exact ⟨hkv, by rw [hfalse]; rfl⟩
  · intro e E s ts extra
    rfl

/-- Witness for the amended C8: an aggregated-trade payload carrying the
unknown key `"zzz"` decodes successfully and retains the key/value in the
`extra` bucket. -/
theorem C8_amended_unknown_keys_witness :
    decodeAggTrade (mkAggJson "aggTrade" 1 "BTCUSDT" 7 "100" "2" 1 2 99 true
        [("zzz", Json.null)]) =
      some { e := "aggTrade", E := 1, s := "BTCUSDT", a := 7, p := "100", q := "2",
             f := 1, l := 2, T := 99, m := true, extra := [("zzz", Json.null)] } ∧
    ("zzz", Json.null) ∈
      ([("zzz", Json.null)] : List (String × Json)).filter
        (fun kv => ¬ aggTradeKeys.contains kv.1) := by
  have h := C8_amended_unknown_keys.1 "aggTrade" 1 "BTCUSDT" 7 "100" "2" 1 2 99 true
    [("zzz", Json.null)]
  exact ⟨h.1.trans rfl, h.2 ("zzz", Json.null) (List.mem_singleton.mpr rfl) rfl⟩

/-! ## Claim C9 -/

/-- C9: in the batched (`"trade_all"`) variant the reconciler
`calc_quantity_and_volume` is never applied: for every market type
(inverse ones included) the record keeps the parsed price and quantity
texts unchanged and its volume is computed directly as price * quantity;
moreover, whenever the market type is inverse, the quantity is nonzero
and the face value differs from the price, the record's volume differs
from the volume the reconciler would have produced. -/
theorem C9_batched_skips_reconciler (table : List (String × String))
    (market_type : MarketType) (trade : OptionTradeMsg) (rec : TradeMsg)
    (h : tradeAllItem table market_type trade = some rec) :
    parseFloat trade.p = some rec.price ∧
    parseFloat trade.q = some rec.quantity ∧
    rec.volume = rec.price * rec.quantity ∧
    ((market_type = MarketType.InverseSwap ∨ market_type = MarketType.InverseFuture) →
      rec.quantity ≠ 0 → contract_value rec.pair ≠ rec.price →
      (calc_quantity_and_volume market_type rec.pair rec.price rec.quantity).2 ≠
        rec.volume) := by
  obtain ⟨h1, h2, -, -, -, -, -, -, h9, -, -, -⟩ :=
    tradeAllItem_fields table market_type trade rec h
  refine ⟨h1, h2, h9, fun hinv hq hcv => ?_⟩
  unfold calc_quantity_and_volume
  rw [if_pos hinv, h9]
  intro heq
  refine hcv (mul_left_cancel₀ hq ?_)
  rw [mul_comm rec.quantity (contract_value rec.pair)] at heq
  rw [mul_comm rec.quantity (contract_value rec.pair),
    mul_comm rec.quantity rec.price]
  exact heq

def w9Table : List (String × String) := [("ETHX", "ETH/USDT")]

def w9Trade : OptionTradeMsg :=
  { t := "T1", p := "2", q := "3", b := "B1", a := "A1", T := 5, s := "1",
    S := "ETHX", extra := [] }

/-- Witness for C9: an inverse-swap batched trade with price 2 and
quantity 3 keeps volume = price * quantity (while the reconciler would
have produced volume 3 * 10 = 30). -/
theorem C9_batched_skips_reconciler_witness :
    ∃ rec, tradeAllItem w9Table MarketType.InverseSwap w9Trade = some rec ∧
      rec.volume = rec.price * rec.quantity ∧
      (calc_quantity_and_volume MarketType.InverseSwap rec.pair rec.price
        rec.quantity).2 ≠ rec.volume := by
  cases hrec : tradeAllItem w9Table MarketType.InverseSwap w9Trade with
  | none => exact absurd hrec (by intro hbad; exact nomatch hbad)
  | some rec =>
    have h := C9_batched_skips_reconciler w9Table MarketType.InverseSwap w9Trade rec hrec
    have hqty : rec.quantity = 3 :=
      Option.some.inj (h.2.1.symm.trans (show parseFloat w9Trade.q = some 3 from rfl))
    have hprice : rec.price = 2 :=
      Option.some.inj (h.1.symm.trans (show parseFloat w9Trade.p = some 2 from rfl))
    have hpair : rec.pair = "ETH/USDT" :=
      Option.some.inj
        ((tradeAllItem_fields w9Table MarketType.InverseSwap w9Trade rec hrec).2.2.1.symm.trans
          (show normalize_pair w9Table w9Trade.S = some "ETH/USDT" from rfl))
    refine ⟨rec, rfl, h.2.2.1, h.2.2.2 (Or.inl rfl) ?_ ?_⟩
    · rw [hqty]; norm_num
    · rw [hpair, hprice, show contract_value "ETH/USDT" = 10 from rfl]
      norm_num

/-! ## Claim C10 -/

/-- C10: in the batched (`"trade_all"`) variant the record's side is Sell
exactly when the inner trade's coded side string `s` equals `"1"`, and
Buy for every other string value (documented or not). -/
theorem C10_batched_side_mapping (table : List (String × String))
    (market_type : MarketType) (trade : OptionTradeMsg) (rec : TradeMsg)
    (h : tradeAllItem table market_type trade = some rec) :
    rec.side = (if trade.s = "1" then TradeSide.Sell else TradeSide.Buy) :=
  (tradeAllItem_fields table market_type trade rec h).2.2.2.2.2.2.2.2.2.1

def w10Table : List (String × String) := [("ETHX", "ETH/USDT")]

def w10TradeSell : OptionTradeMsg :=
  { t := "T1", p := "2", q := "3", b := "B1", a := "A1", T := 5, s := "1",
    S := "ETHX", extra := [] }

def w10TradeOther : OptionTradeMsg :=
  { t := "T2", p := "2", q := "3", b := "B2", a := "A2", T := 5, s := "7",
    S := "ETHX", extra := [] }

/-- Witness for C10: coded side `"1"` gives Sell; the undocumented code
`"7"` gives Buy. -/
theorem C10_batched_side_mapping_witness :
    (tradeAllItem w10Table MarketType.EuropeanOption w10TradeSell).map TradeMsg.side =
      some TradeSide.Sell ∧
    (tradeAllItem w10Table MarketType.EuropeanOption w10TradeOther).map TradeMsg.side =
      some TradeSide.Buy := by
  constructor
  · cases hrec : tradeAllItem w10Table MarketType.EuropeanOption w10TradeSell with
    | none => exact absurd hrec (by intro hbad; exact nomatch hbad)
    | some rec =>
      have h := C10_batched_side_mapping w10Table MarketType.EuropeanOption w10TradeSell rec hrec
      rw [show Option.map TradeMsg.side (some rec) = some rec.side from rfl, h]
      rfl
  · cases hrec : tradeAllItem w10Table MarketType.EuropeanOption w10TradeOther with
    | none => exact absurd hrec (by intro hbad; exact nomatch hbad)
    | some rec =>
      have h := C10_batched_side_mapping w10Table MarketType.EuropeanOption w10TradeOther rec hrec
      rw [show Option.map TradeMsg.side (some rec) = some rec.side from rfl, h]
      rfl

end Binance
